import Mathlib

/-!
Shallow embedding of `varietyslideshow/varietyslideshow.py` (the
variety-slideshow program): the file-traversal state, option persistence,
directory walking, sorting, the pan/zoom geometry, and one iteration of the
`go_next` transition controller, together with theorems checking the
program's specification.

Filesystem and GUI-toolkit calls are passed in as explicit parameters
(predicates / listings / random draws); machine floats are modelled as `ℚ`.
-/

/-- Kind of a pending GLib timeout scheduled by `go_next`: the regular
per-image interval or the 100 ms retry scheduled from the exception
handler. -/
inductive TKind where
  | interval
  | retry
  deriving DecidableEq, Repr

/-- The mutable fields of the `VarietySlideshow` object that the traversal
and transition logic read and write.  Textures are identified by numeric
ids (`tex_counter` supplies fresh ones). -/
structure SState where
  running : Bool
  queued : List String
  files : List String
  error_files : List String
  cursor : Nat
  texture : Nat
  next_texture : Option Nat
  prev_texture : Option Nat
  next_timeout : Option TKind
  will_enlarge : Bool
  tex_counter : Nat
  deriving DecidableEq, Repr

/-- Python `set.add`: the known-bad set is modelled as a list with
membership semantics; adding appends when absent. -/
def setAdd (l : List String) (x : String) : List String :=
  if x ∈ l then l else l ++ [x]

/-- Python `self.error_files == set(self.files)`: equality of the two sets
of elements, i.e. mutual inclusion. -/
def setEqB (a b : List String) : Bool :=
  a.all (fun x => b.contains x) && b.all (fun x => a.contains x)

/-- `get_next_file`, with explicit fuel bounding the self-recursion taken
when the file at the cursor is known-bad.  `none` means the recursion did
not finish within `fuel` steps (or the cursor was out of range, which in
Python would raise).  A `some (s, r, q)` result carries the new state, the
returned filename (`r = none` models returning `None`), and whether `quit`
was called (`quit` also sets `running := false`). -/
def get_next_file : Nat → SState → Option (SState × Option String × Bool)
  | 0, _ => none
  | fuel + 1, s =>
    if s.running = false then some (s, none, false)
    else
      match s.queued with
      | q :: rest => some ({ s with queued := rest }, some q, false)
      | [] =>
        if setEqB s.error_files s.files then
          some ({ s with running := false }, none, true)
        else
          match s.files[s.cursor]? with
          | none => none
          | some f =>
            let s2 := { s with cursor := (s.cursor + 1) % s.files.length }
            if f ∈ s2.error_files then get_next_file fuel s2
            else some (s2, some f, false)

/-- `queue`: append a filename to the out-of-band queue. -/
def queue (s : SState) (filename : String) : SState :=
  { s with queued := s.queued ++ [filename] }

/-- `prepare_next_data`: picks the next file via `get_next_file` and hands
it to the decode worker.  Returns the updated state and the filename given
to the worker (`none` when no file was produced and `None` was put on the
data queue); the outer `none` propagates non-termination of the
traversal recursion. -/
def prepare_next_data (fuel : Nat) (s : SState) : Option (SState × Option String) :=
  match get_next_file fuel s with
  | none => none
  | some (s2, res, _) => some (s2, res)

/-- The success payload delivered through the data queue: pixel bytes
(opaque id), alpha flag, width, height, rowstride, channel count. -/
structure ImageData where
  pixels : Nat
  has_alpha : Bool
  width : Nat
  height : Nat
  rowstride : Nat
  channels : Nat
  deriving DecidableEq, Repr

/-- What `self.data_queue.get(True, timeout=1)` produced inside `go_next`:
a success tuple, the failing filename sentinel, `None`, or the
`Queue.Empty` timeout (which surfaces through the exception handler). -/
inductive Delivered where
  | timeout
  | imageTuple (d : ImageData)
  | fileError (filename : String)
  | nothing
  deriving DecidableEq, Repr

/-- Side effects of one `go_next` iteration. -/
structure Effects where
  prefetch_started : Bool
  recursed : Bool
  retry_scheduled : Bool
  destroyed : Option Nat
  deriving DecidableEq, Repr

/-- One iteration of `go_next`, given the value the data queue delivered.
Mirrors the source: the pending timeout is removed first; a non-tuple
delivery adds the (truthy) filename to `error_files`, starts the next
prefetch and recurses; a success tuple builds the next texture, swaps the
texture pair, schedules the interval timeout and starts the next prefetch;
a timeout lands in the exception handler which schedules a 100 ms retry. -/
def go_next_step (fuel : Nat) (s : SState) (d : Delivered) :
    Option (SState × Effects) :=
  if s.running = false then some (s, ⟨false, false, false, none⟩)
  else
    let s0 := { s with next_timeout := none }
    match d with
    | .timeout =>
      some ({ s0 with next_timeout := some TKind.retry }, ⟨false, false, true, none⟩)
    | .fileError f =>
      let s1 := if f = "" then s0 else { s0 with error_files := setAdd s0.error_files f }
      match prepare_next_data fuel s1 with
      | none => none
      | some (s2, _) => some (s2, ⟨true, true, false, none⟩)
    | .nothing =>
      match prepare_next_data fuel s0 with
      | none => none
      | some (s2, _) => some (s2, ⟨true, true, false, none⟩)
    | .imageTuple _ =>
      let nt := s0.tex_counter
      let s1 := { s0 with
        next_texture := some nt,
        tex_counter := s0.tex_counter + 1,
        will_enlarge := !s0.will_enlarge }
      let destroyed := s1.prev_texture
      let s2 := { s1 with
        prev_texture := some s1.texture,
        texture := nt,
        next_timeout := some TKind.interval }
      match prepare_next_data fuel s2 with
      | none => none
      | some (s3, _) => some (s3, ⟨true, false, false, destroyed⟩)

/-- Image extensions accepted by the program. -/
def IMAGE_TYPES : List String := [".jpg", ".jpeg", ".png", ".bmp"]

/-- Python `str.lower` (on the character list; ASCII case folding as used
by the extension and option comparisons of this program). -/
def strLower (s : String) : String := ⟨s.data.map Char.toLower⟩

/-- Python `str.endswith`. -/
def strEndsWith (s suffix : String) : Bool := suffix.data.isSuffixOf s.data

/-- Python `str.startswith`. -/
def strStartsWith (s p : String) : Bool := p.data.isPrefixOf s.data

/-- `is_image`: `os.path.isfile(filename)` is supplied as the predicate
`isfile`; the extension test lowercases the name and checks the suffix
against `IMAGE_TYPES` (Python `str.endswith` on a tuple). -/
def is_image (isfile : String → Bool) (filename : String) : Bool :=
  isfile filename && IMAGE_TYPES.any (fun t => strEndsWith (strLower filename) t)

/-- Inner loop of the directory walk in `prepare_file_queues`: one
`os.walk` triple's filenames are scanned (already joined with their root);
images are appended, and after every file the walk breaks out once the
accumulated list length exceeds 2000.  The Boolean reports whether the
`break` fired. -/
def walk_files (isImg : String → Bool) : List String → List String → List String × Bool
  | acc, [] => (acc, false)
  | acc, f :: rest =>
    let acc2 := if isImg f then acc ++ [f] else acc
    if acc2.length > 2000 then (acc2, true)
    else walk_files isImg acc2 rest

/-- Outer loop over the `os.walk` triples of one directory argument: the
`for … else: continue / break` ladder stops the whole walk as soon as the
inner loop broke. -/
def walk_dir (isImg : String → Bool) : List String → List (List String) → List String × Bool
  | acc, [] => (acc, false)
  | acc, fnames :: rest =>
    match walk_files isImg acc fnames with
    | (acc2, true) => (acc2, true)
    | (acc2, false) => walk_dir isImg acc2 rest

/-- The collection phase of `prepare_file_queues` over the command-line
arguments (`os.path.abspath(os.path.expanduser(arg))` is modelled as the
identity; `os.walk` of a directory is supplied by `walkOf` as lists of
already-joined file paths).  An argument that is itself an image is
appended; a directory is walked with the 2000 cap; once the cap `break`
fires, the outermost `break` stops processing the remaining arguments. -/
def collect_files (isfile isdir : String → Bool) (walkOf : String → List (List String)) :
    List String → List String → List String
  | acc, [] => acc
  | acc, arg :: rest =>
    if is_image isfile arg then collect_files isfile isdir walkOf (acc ++ [arg]) rest
    else if isdir arg then
      match walk_dir (is_image isfile) acc (walkOf arg) with
      | (acc2, true) => acc2
      | (acc2, false) => collect_files isfile isdir walkOf acc2 rest
    else collect_files isfile isdir walkOf acc rest

/-- The ordering phase of `prepare_file_queues`: `keep` leaves the list,
`name` sorts it (Python `list.sort()` is a stable ascending sort, modelled
by insertion sort on the string order), `date` sorts it by the
modification-time key `mtime`, anything else shuffles (the shuffle result
is supplied by the `shuffle` parameter); finally a `sort_order` starting
with `desc` (case-insensitively) reverses the list. -/
def sort_files (sort sort_order : String) (mtime : String → ℚ)
    (shuffle : List String → List String) (files : List String) : List String :=
  let s := strLower sort
  let base :=
    if s = "keep" then files
    else if s = "name" then files.insertionSort (· ≤ ·)
    else if s = "date" then files.insertionSort (fun a b => mtime a ≤ mtime b)
    else shuffle files
  if strStartsWith (strLower sort_order) "desc" then base.reverse else base

/-- Value of a persisted/parsed option: a scalar or the file/folder list. -/
inductive OVal where
  | scalar (s : String)
  | paths (l : List String)
  deriving DecidableEq, Repr

/-- Python dicts (`AttrDict`) as ordered association lists. -/
abbrev Dict := List (String × OVal)

/-- Dict lookup. -/
def dget : Dict → String → Option OVal
  | [], _ => none
  | (k2, v) :: rest, k => if k2 = k then some v else dget rest k

/-- Dict assignment: replace in place, else append (Python dict update of
a single key). -/
def dset : Dict → String → OVal → Dict
  | [], k, v => [(k, v)]
  | (k2, v2) :: rest, k, v =>
    if k2 = k then (k, v) :: rest else (k2, v2) :: dset rest k v

/-- Dict deletion (`del d[k]`). -/
def ddel : Dict → String → Dict
  | [], _ => []
  | (k2, v2) :: rest, k =>
    if k2 = k then ddel rest k else (k2, v2) :: ddel rest k

/-- The `dest` names of all options registered on the option parser
(`--hide-from-taskbar` and `--dont-hide-from-taskbar` share one dest). -/
def cmd_dests : List String :=
  ["seconds", "fade", "zoom", "pan", "sort", "sort_order", "monitor", "mode",
   "title", "hide_from_taskbar", "defaults", "quit_on_motion", "ar_target"]

/-- The built-in default for each option dest, used when it is neither on
the command line nor in the loaded settings. -/
def builtin_defaults : Dict :=
  [("seconds", .scalar "6"), ("fade", .scalar "0.5"), ("zoom", .scalar "0.2"),
   ("pan", .scalar "0.05"), ("sort", .scalar "random"), ("sort_order", .scalar "asc"),
   ("monitor", .scalar "1"), ("mode", .scalar "fullscreen"),
   ("title", .scalar "Variety Slideshow"), ("hide_from_taskbar", .scalar "False"),
   ("ar_target", .scalar "max")]

/-- The value optparse produces for dest `k`: the command-line value when
given, else the option's declared default — which is
`self.options.get(k, BUILTIN)` for every option except `--defaults` and
`--quit-on-motion`, whose defaults are a plain `None` (they never fall
back to the loaded settings). -/
def optparse_value (loaded cli : Dict) (k : String) : OVal :=
  match dget cli k with
  | some v => v
  | none =>
    if k = "defaults" ∨ k = "quit_on_motion" then .scalar "None"
    else match dget loaded k with
      | some v => v
      | none => (dget builtin_defaults k).getD (.scalar "None")

/-- `vars(cmd_options)`: one entry per registered dest. -/
def vars_cmd_options (loaded cli : Dict) : Dict :=
  cmd_dests.map (fun k => (k, optparse_value loaded cli k))

/-- The settings-dict part of `parse_options` as saved by `save_options`:
`self.options.update(vars(cmd_options))`, then `del self.options["defaults"]`,
then the positional arguments become `files_and_folders` (falling back to
`/usr/share/backgrounds/` when absent).  `save_options` dumps this dict
verbatim. -/
def parse_options_dict (loaded cli : Dict) (args : List String) : Dict :=
  let o := (vars_cmd_options loaded cli).foldl (fun d kv => dset d kv.1 kv.2) loaded
  let o := ddel o "defaults"
  let o := if args.length > 0 then dset o "files_and_folders" (.paths args) else o
  if (dget o "files_and_folders").isSome then o
  else dset o "files_and_folders" (.paths ["/usr/share/backgrounds/"])

/-- `get_ratio_to_screen`: the larger of the two stage/texture ratios when
the aspect-ratio target is `max`, otherwise the smaller. -/
def get_ratio_to_screen (ar_target : String) (stage_w stage_h tex_w tex_h : ℚ) : ℚ :=
  if ar_target = "max" then max (stage_w / tex_w) (stage_h / tex_h)
  else min (stage_w / tex_w) (stage_h / tex_h)

/-- Result of `initialize_pan_and_zoom`: the toggled flag and the initial
and target geometry applied to the texture. -/
structure PanZoom where
  will_enlarge : Bool
  initial_size : ℚ × ℚ
  initial_position : ℚ × ℚ
  target_size : ℚ × ℚ
  target_position : ℚ × ℚ
  deriving DecidableEq, Repr

/-- `initialize_pan_and_zoom`.  The random draws are explicit parameters:
`sign_x`/`sign_y` model the two `random.choice((-1, 1))` draws inside
`rand_pan` (true picks `1`), `r_pan_x`/`r_pan_y`/`r_zoom` model the
`random.random()` draws. -/
def initialize_pan_and_zoom (ar_target : String) (pan zoom : ℚ)
    (stage_w stage_h tex_w tex_h : ℚ) (will_enlarge : Bool)
    (sign_x sign_y : Bool) (r_pan_x r_pan_y r_zoom : ℚ) : PanZoom :=
  let we := !will_enlarge
  let pan_px := max stage_w stage_h * pan
  let rand_pan_x := (if sign_x then (1 : ℚ) else -1) * (pan_px + pan_px * r_pan_x)
  let rand_pan_y := (if sign_y then (1 : ℚ) else -1) * (pan_px + pan_px * r_pan_y)
  let zoom_factor := (1 + zoom) * (1 + zoom * r_zoom)
  let scale := get_ratio_to_screen ar_target stage_w stage_h tex_w tex_h
  let base_w := tex_w * scale
  let base_h := tex_h * scale
  let safety_zoom := if zoom > 0 then 1 + pan / 2 else 1
  let small_size := (base_w * safety_zoom, base_h * safety_zoom)
  let big_size := (base_w * safety_zoom * zoom_factor, base_h * safety_zoom * zoom_factor)
  let small_position := (-(small_size.1 - stage_w) / 2, -(small_size.2 - stage_h) / 2)
  let big_position :=
    (-(big_size.1 - stage_w) / 2 + rand_pan_x, -(big_size.2 - stage_h) / 2 + rand_pan_y)
  if we then
    { will_enlarge := we, initial_size := small_size, initial_position := small_position,
      target_size := big_size, target_position := big_position }
  else
    { will_enlarge := we, initial_size := big_size, initial_position := big_position,
      target_size := small_size, target_position := small_position }

/-- The startup assignment in `run`:
`self.will_enlarge = random.choice((True, False))` — the draw selects an
element of the two-element tuple. -/
def run_will_enlarge_init (draw : Fin 2) : Bool := [true, false].get draw

theorem mem_setAdd_self (l : List String) (x : String) : x ∈ setAdd l x := by
  by_cases h : x ∈ l <;> simp [setAdd, h]

theorem setEqB_iff (a b : List String) :
    setEqB a b = true ↔ (∀ x ∈ a, x ∈ b) ∧ (∀ x ∈ b, x ∈ a) := by
  simp [setEqB, List.all_eq_true, List.elem_iff]

theorem setEqB_eq_false {a b : List String} {x : String} (hxb : x ∈ b) (hxa : x ∉ a) :
    setEqB a b = false := by
  cases h : setEqB a b with
  | false => rfl
  | true => exact absurd (((setEqB_iff a b).1 h).2 x hxb) hxa

/-- `get_next_file` only writes `queued`, `cursor` and `running`: all other
fields are preserved. -/
theorem get_next_file_frame :
    ∀ (fuel : Nat) (s s' : SState) (r : Option String) (b : Bool),
      get_next_file fuel s = some (s', r, b) →
      s'.files = s.files ∧ s'.error_files = s.error_files ∧ s'.texture = s.texture := by
  intro fuel
  induction fuel with
  | zero => intro s s' r b h; simp [get_next_file] at h
  | succ n ih =>
    intro s s' r b h
    simp only [get_next_file] at h
    split at h
    · cases h; exact ⟨rfl, rfl, rfl⟩
    · split at h
      · cases h; exact ⟨rfl, rfl, rfl⟩
      · split at h
        · cases h; exact ⟨rfl, rfl, rfl⟩
        · split at h
          · cases h
          · split at h
            · simpa using ih _ _ _ _ h
            · cases h; exact ⟨rfl, rfl, rfl⟩

/-- With an empty out-of-band queue, a filename returned by
`get_next_file` is never in `error_files`. -/
theorem get_next_file_not_error :
    ∀ (fuel : Nat) (s : SState), s.queued = [] →
      ∀ (s' : SState) (f : String) (b : Bool),
        get_next_file fuel s = some (s', some f, b) → f ∉ s.error_files := by
  intro fuel
  induction fuel with
  | zero => intro s hq s' f b h; simp [get_next_file] at h
  | succ n ih =>
    intro s hq s' f b h
    simp only [get_next_file, hq] at h
    split at h
    · simp at h
    · split at h
      · simp at h
      · split at h
        · cases h
        · split at h
          · have h2 := ih _ rfl _ _ _ h
            exact h2
          · rename_i f0 hf0 hmem
            cases h
            exact hmem

/-- If the `k` files at cursor positions `cursor, …, cursor + k - 1`
(cyclically) are known-bad and the one at `cursor + k` is not, the
traversal returns the latter, advancing the cursor `k + 1` slots, using at
most `k + 1` units of fuel. -/
theorem get_next_file_scan :
    ∀ (k fuel : Nat) (s : SState),
      s.queued = [] → s.running = true → s.cursor < s.files.length → k < fuel →
      (∀ i, i < k → s.files.getD ((s.cursor + i) % s.files.length) "" ∈ s.error_files) →
      s.files.getD ((s.cursor + k) % s.files.length) "" ∉ s.error_files →
      get_next_file fuel s =
        some ({ s with cursor := (s.cursor + k + 1) % s.files.length },
              some (s.files.getD ((s.cursor + k) % s.files.length) ""), false) := by
  intro k
  induction k with
  | zero =>
    intro fuel s hq hr hc hfuel hbad hgood
    obtain ⟨m, rfl⟩ : ∃ m, fuel = m + 1 := ⟨fuel - 1, by omega⟩
    have hn : 0 < s.files.length := by omega
    have hcc : (s.cursor + 0) % s.files.length = s.cursor := by
      simpa using Nat.mod_eq_of_lt hc
    rw [hcc] at hgood ⊢
    have hfc : s.files[s.cursor]? = some (s.files.getD s.cursor "") := by
      rw [List.getD_eq_getElem _ _ hc]
      exact List.getElem?_eq_getElem hc
    have hmemf : s.files.getD s.cursor "" ∈ s.files := by
      rw [List.getD_eq_getElem _ _ hc]; exact List.getElem_mem hc
    have hne : setEqB s.error_files s.files = false := setEqB_eq_false hmemf hgood
    simp only [get_next_file, hq, hr, hne, hfc]
    simp
    intro hx
    rw [hfc, Option.getD_some] at hx
    exact absurd hx hgood
  | succ k ih =>
    intro fuel s hq hr hc hfuel hbad hgood
    obtain ⟨m, rfl⟩ : ∃ m, fuel = m + 1 := ⟨fuel - 1, by omega⟩
    have hn : 0 < s.files.length := by omega
    have hcc : (s.cursor + 0) % s.files.length = s.cursor := by
      simpa using Nat.mod_eq_of_lt hc
    have hbad0 : s.files.getD s.cursor "" ∈ s.error_files := by
      have h0 := hbad 0 (Nat.succ_pos k); rwa [hcc] at h0
    have hfc : s.files[s.cursor]? = some (s.files.getD s.cursor "") := by
      rw [List.getD_eq_getElem _ _ hc]
      exact List.getElem?_eq_getElem hc
    have hjlt : (s.cursor + (k + 1)) % s.files.length < s.files.length := Nat.mod_lt _ hn
    have hmemg : s.files.getD ((s.cursor + (k + 1)) % s.files.length) "" ∈ s.files := by
      rw [List.getD_eq_getElem _ _ hjlt]; exact List.getElem_mem hjlt
    have hne : setEqB s.error_files s.files = false := setEqB_eq_false hmemg hgood
    have hrec : get_next_file (m + 1) s =
        get_next_file m { s with cursor := (s.cursor + 1) % s.files.length } := by
      simp only [get_next_file, hq, hr, hne, hfc]
      simp
      intro hx
      rw [hfc, Option.getD_some] at hx
      exact absurd hbad0 hx
    rw [hrec]
    have e1 : ((s.cursor + 1) % s.files.length + k) % s.files.length =
        (s.cursor + (k + 1)) % s.files.length := by
      rw [Nat.mod_add_mod]
      congr 1
      omega
    have e2 : ((s.cursor + 1) % s.files.length + k + 1) % s.files.length =
        (s.cursor + (k + 1) + 1) % s.files.length := by
      rw [Nat.add_assoc, Nat.mod_add_mod]
      congr 1
      omega
    have hbad2 : ∀ i, i < k →
        s.files.getD (((s.cursor + 1) % s.files.length + i) % s.files.length) "" ∈
          s.error_files := by
      intro i hi
      have hsh : ((s.cursor + 1) % s.files.length + i) % s.files.length =
          (s.cursor + (i + 1)) % s.files.length := by
        rw [Nat.mod_add_mod]; congr 1; omega
      rw [hsh]
      exact hbad (i + 1) (by omega)
    have hgood2 : s.files.getD
        (((s.cursor + 1) % s.files.length + k) % s.files.length) "" ∉ s.error_files := by
      rw [e1]; exact hgood
    have hih := ih m { s with cursor := (s.cursor + 1) % s.files.length }
      hq hr (Nat.mod_lt _ hn) (by omega) hbad2 hgood2
    rw [hih, e1, e2]

/-- Number of known-bad files the traversal skips before returning, when
started at cursor `c` with at most `fuel` steps available. -/
def skip_count (errs files : List String) : Nat → Nat → Nat
  | _, 0 => 0
  | c, fuel + 1 =>
    match files[c]? with
    | none => 0
    | some f => if f ∈ errs then skip_count errs files ((c + 1) % files.length) fuel + 1 else 0

/-- Any successful `get_next_file` call with an empty queue returns the
file sitting `skip_count` slots past the cursor (cyclically), advances the
cursor just past it, and never returns a known-bad file or quits. -/
theorem get_next_file_skip_spec :
    ∀ (fuel : Nat) (s s' : SState) (f : String) (b : Bool),
      s.queued = [] →
      get_next_file fuel s = some (s', some f, b) →
      s'.cursor =
        (s.cursor + skip_count s.error_files s.files s.cursor fuel + 1) % s.files.length ∧
      f = s.files.getD
        ((s.cursor + skip_count s.error_files s.files s.cursor fuel) % s.files.length) "" ∧
      f ∉ s.error_files ∧ b = false := by
  intro fuel
  induction fuel with
  | zero => intro s s' f b hq h; simp [get_next_file] at h
  | succ n ih =>
    intro s s' f b hq h
    simp only [get_next_file, hq] at h
    split at h
    · simp at h
    · split at h
      · simp at h
      · split at h
        · cases h
        · rename_i f0 hf0
          have hlt : s.cursor < s.files.length := by
            rw [List.getElem?_eq_some] at hf0
            exact hf0.1
          have hgd : s.files.getD s.cursor "" = f0 := by
            rw [List.getD_eq_getElem?_getD, hf0, Option.getD_some]
          split at h
          · rename_i hmem
            have hrec := ih _ _ _ _ rfl h
            dsimp only at hrec
            have hsc : skip_count s.error_files s.files s.cursor (n + 1) =
                skip_count s.error_files s.files ((s.cursor + 1) % s.files.length) n + 1 := by
              simp [skip_count, hf0, hmem]
            obtain ⟨hc1, hc2, hc3, hc4⟩ := hrec
            refine ⟨?_, ?_, hc3, hc4⟩
            · rw [hsc, hc1]
              rw [show (s.cursor + 1) % s.files.length +
                    skip_count s.error_files s.files ((s.cursor + 1) % s.files.length) n + 1 =
                  (s.cursor + 1) % s.files.length +
                    (skip_count s.error_files s.files ((s.cursor + 1) % s.files.length) n + 1)
                from by omega]
              rw [Nat.mod_add_mod]
              congr 1
              omega
            · rw [hsc, hc2, Nat.mod_add_mod]
              congr 2
              omega
          · rename_i hmem
            cases h
            have hsc : skip_count s.error_files s.files s.cursor (n + 1) = 0 := by
              simp only [skip_count, hf0]
              simp [hmem]
            refine ⟨?_, ?_, ?_, rfl⟩
            · rw [hsc]
            · rw [hsc, Nat.add_zero, Nat.mod_eq_of_lt hlt, hgd]
            · simpa using hmem

/-- C10: if the show is running, the out-of-band queue is empty, the cursor
is in range and some file in the (hence non-empty) list is not known-bad,
then `get_next_file` terminates within `len(files)` calls, returning a
filename and not quitting. -/
theorem get_next_file_terminates_when_good_file_exists (s : SState) (f0 : String)
    (hq : s.queued = []) (hr : s.running = true) (hc : s.cursor < s.files.length)
    (hmem : f0 ∈ s.files) (hgood : f0 ∉ s.error_files) :
    (get_next_file s.files.length s).map (fun p => (p.2.1.isSome, p.2.2)) =
      some (true, false) := by
  have hn : 0 < s.files.length := by omega
  obtain ⟨j, hj, hjf⟩ := List.mem_iff_getElem.mp hmem
  have hP0 : s.files.getD
      ((s.cursor + (s.files.length + j - s.cursor) % s.files.length) % s.files.length) ""
        ∉ s.error_files := by
    have h1 : (s.cursor + (s.files.length + j - s.cursor) % s.files.length) %
        s.files.length = j := by
      rw [Nat.add_mod_mod]
      rw [show s.cursor + (s.files.length + j - s.cursor) = s.files.length + j from by omega]
      rw [Nat.add_mod_left, Nat.mod_eq_of_lt hj]
    rw [h1, List.getD_eq_getElem _ _ hj, hjf]
    exact hgood
  have hexists : ∃ k,
      s.files.getD ((s.cursor + k) % s.files.length) "" ∉ s.error_files := ⟨_, hP0⟩
  have hklt : Nat.find hexists < s.files.length :=
    lt_of_le_of_lt (Nat.find_le hP0) (Nat.mod_lt _ hn)
  have hscan := get_next_file_scan (Nat.find hexists) s.files.length s hq hr hc hklt
    (fun i hi => by
      have hmin := Nat.find_min hexists hi
      simpa using hmin)
    (Nat.find_spec hexists)
  rw [hscan]
  simp

/-- C10 witness: a concrete two-file state with one bad file. -/
def oneGoodState : SState :=
  { running := true, queued := [], files := ["a", "b"], error_files := ["a"],
    cursor := 0, texture := 0, next_texture := none, prev_texture := none,
    next_timeout := none, will_enlarge := false, tex_counter := 1 }

theorem get_next_file_terminates_when_good_file_exists_witness :
    oneGoodState.queued = [] ∧ oneGoodState.running = true ∧
    oneGoodState.cursor < oneGoodState.files.length ∧
    "b" ∈ oneGoodState.files ∧ "b" ∉ oneGoodState.error_files ∧
    (get_next_file oneGoodState.files.length oneGoodState).map
      (fun p => (p.2.1.isSome, p.2.2)) = some (true, false) :=
  ⟨rfl, rfl, by decide, by decide, by decide,
    get_next_file_terminates_when_good_file_exists oneGoodState "b" rfl rfl
      (by decide) (by decide) (by decide)⟩

/-- C1 (amended): when the show is running and the out-of-band queue is
empty, a filename returned by `get_next_file` is never in the known-bad
set; and if moreover the known-bad set equals the set of listed files, the
call quits (`running := false`, quit flag set) and returns no path. -/
theorem get_next_file_skips_blacklist_and_quits_when_all_bad
    (fuel : Nat) (s s' : SState) (r : Option String) (b : Bool)
    (hq : s.queued = []) (hr : s.running = true)
    (hret : get_next_file fuel s = some (s', r, b)) :
    r.all (fun f => decide (f ∉ s.error_files)) = true ∧
    (setEqB s.error_files s.files = true →
      s' = { s with running := false } ∧ r = none ∧ b = true) := by
  constructor
  · cases r with
    | none => rfl
    | some f =>
      have hnb := get_next_file_not_error fuel s hq s' f b hret
      simp [hnb]
  · intro hall
    cases fuel with
    | zero => simp [get_next_file] at hret
    | succ m =>
      have hcomp : get_next_file (m + 1) s =
          some ({ s with running := false }, none, true) := by
        simp only [get_next_file, hq]
        simp [hr, hall]
      rw [hcomp] at hret
      injection hret with h0
      injection h0 with h1 h23
      injection h23 with h2 h3
      exact ⟨h1.symm, h2.symm, h3.symm⟩

/-- C1 witness: a one-file state whose only file is known-bad. -/
def allBadState : SState :=
  { running := true, queued := [], files := ["a"], error_files := ["a"],
    cursor := 0, texture := 0, next_texture := none, prev_texture := none,
    next_timeout := none, will_enlarge := false, tex_counter := 1 }

theorem get_next_file_skips_blacklist_and_quits_when_all_bad_witness :
    allBadState.queued = [] ∧ allBadState.running = true ∧
    get_next_file 1 allBadState = some ({ allBadState with running := false }, none, true) ∧
    ((none : Option String).all (fun f => decide (f ∉ allBadState.error_files)) = true ∧
      (setEqB allBadState.error_files allBadState.files = true →
        ({ allBadState with running := false } : SState) =
            { allBadState with running := false } ∧
          (none : Option String) = none ∧ true = true)) :=
  ⟨rfl, rfl, by decide,
    get_next_file_skips_blacklist_and_quits_when_all_bad 1 allBadState
      { allBadState with running := false } none true rfl rfl (by decide)⟩

/-- C1 counterexample: with a blacklisted filename sitting in the
out-of-band queue, `get_next_file` returns a path that is in
`error_files`, so the claim as stated (over all states with a non-empty
file list) fails. -/
def queuedBadState : SState :=
  { running := true, queued := ["bad"], files := ["good"], error_files := ["bad"],
    cursor := 0, texture := 0, next_texture := none, prev_texture := none,
    next_timeout := none, will_enlarge := false, tex_counter := 1 }

theorem get_next_file_returns_blacklisted_queued_file :
    (get_next_file 1 queuedBadState).map (fun p => p.2.1) = some (some "bad") ∧
    "bad" ∈ queuedBadState.error_files ∧ queuedBadState.files ≠ [] := by decide

/-- C2 (amended): per successful call with an empty queue, the cursor
advances once per file examined — `skip_count` known-bad files are skipped
and the cursor ends one slot past the returned file, i.e. it advances
`skip_count + 1` positions modulo the list length (not exactly one). -/
theorem get_next_file_cursor_advances_once_per_examined_file
    (fuel : Nat) (s s' : SState) (f : String) (b : Bool)
    (hq : s.queued = [])
    (hret : get_next_file fuel s = some (s', some f, b)) :
    s'.cursor =
      (s.cursor + skip_count s.error_files s.files s.cursor fuel + 1) % s.files.length ∧
    f = s.files.getD
      ((s.cursor + skip_count s.error_files s.files s.cursor fuel) % s.files.length) "" ∧
    f ∉ s.error_files := by
  have h := get_next_file_skip_spec fuel s s' f b hq hret
  exact ⟨h.1, h.2.1, h.2.2.1⟩

/-- C2 witness: one bad file is skipped, so the cursor advances two slots. -/
def skipDemoState : SState :=
  { running := true, queued := [], files := ["a", "b", "c"], error_files := ["a"],
    cursor := 0, texture := 0, next_texture := none, prev_texture := none,
    next_timeout := none, will_enlarge := false, tex_counter := 1 }

theorem get_next_file_cursor_advances_once_per_examined_file_witness :
    skipDemoState.queued = [] ∧
    get_next_file 3 skipDemoState =
      some ({ skipDemoState with cursor := 2 }, some "b", false) ∧
    (({ skipDemoState with cursor := 2 } : SState).cursor =
        (skipDemoState.cursor +
          skip_count skipDemoState.error_files skipDemoState.files skipDemoState.cursor 3 + 1) %
          skipDemoState.files.length ∧
      "b" = skipDemoState.files.getD
        ((skipDemoState.cursor +
          skip_count skipDemoState.error_files skipDemoState.files skipDemoState.cursor 3) %
          skipDemoState.files.length) "" ∧
      "b" ∉ skipDemoState.error_files) :=
  ⟨rfl, by decide,
    get_next_file_cursor_advances_once_per_examined_file 3 skipDemoState
      { skipDemoState with cursor := 2 } "b" false rfl (by decide)⟩

/-- C2 counterexample: with two consecutive known-bad files the cursor
advances three positions modulo the length (back to 0), not exactly one
position (which would be 1). -/
def multiSkipState : SState :=
  { running := true, queued := [], files := ["a", "b", "c"], error_files := ["a", "b"],
    cursor := 0, texture := 0, next_texture := none, prev_texture := none,
    next_timeout := none, will_enlarge := false, tex_counter := 1 }

theorem get_next_file_cursor_advances_thrice_skipping_two :
    (get_next_file 3 multiSkipState).map (fun p => (p.1.cursor, p.2.1)) =
      some (0, some "c") ∧
    (multiSkipState.cursor + 1) % multiSkipState.files.length = 1 ∧ (0 : Nat) ≠ 1 := by
  decide

/-- C9: a filename appended by `queue` to an empty out-of-band queue is
returned by the next `get_next_file` call unconditionally — no blacklist
check and no all-bad shutdown check is applied to it. -/
theorem queue_bypasses_blacklist_and_shutdown (fuel : Nat) (s : SState) (f : String)
    (hq : s.queued = []) (hr : s.running = true) :
    get_next_file (fuel + 1) (queue s f) = some ({ s with queued := [] }, some f, false) := by
  simp [get_next_file, queue, hq, hr]

/-- C9 witness: the queued filename is itself known-bad and every listed
file is known-bad, yet it is returned and no quit happens. -/
def allBadQueueState : SState :=
  { running := true, queued := [], files := ["a"], error_files := ["a", "x"],
    cursor := 0, texture := 0, next_texture := none, prev_texture := none,
    next_timeout := none, will_enlarge := false, tex_counter := 1 }

theorem queue_bypasses_blacklist_and_shutdown_witness :
    allBadQueueState.queued = [] ∧ allBadQueueState.running = true ∧
    "x" ∈ allBadQueueState.error_files ∧
    setEqB allBadQueueState.error_files allBadQueueState.files = false ∧
    get_next_file 1 (queue allBadQueueState "x") =
      some ({ allBadQueueState with queued := [] }, some "x", false) :=
  ⟨rfl, rfl, by decide, by decide,
    queue_bypasses_blacklist_and_shutdown 0 allBadQueueState "x" rfl rfl⟩

/-- Length bound for the inner walk loop: starting from at most 2000
collected files, the loop ends with exactly 2001 files when its `break`
fired and with at most 2000 otherwise. -/
theorem walk_files_bound (isImg : String → Bool) :
    ∀ (fs acc : List String), acc.length ≤ 2000 →
      ((walk_files isImg acc fs).2 = true → (walk_files isImg acc fs).1.length = 2001) ∧
      ((walk_files isImg acc fs).2 = false → (walk_files isImg acc fs).1.length ≤ 2000) := by
  intro fs
  induction fs with
  | nil =>
    intro acc h
    constructor
    · intro hb; simp [walk_files] at hb
    · intro _; simpa [walk_files] using h
  | cons f rest ih =>
    intro acc h
    by_cases himg : isImg f = true
    · by_cases hlen : (acc ++ [f]).length > 2000
      · have hlen2 : 2000 < acc.length + 1 := by simp at hlen; omega
        have hstep : walk_files isImg acc (f :: rest) = (acc ++ [f], true) := by
          simp [walk_files, himg, hlen2]
        rw [hstep]
        constructor
        · intro _
          simp
          omega
        · intro hb
          simp at hb
      · have hlen2 : ¬ 2000 < acc.length + 1 := by simp at hlen; omega
        have hstep : walk_files isImg acc (f :: rest) =
            walk_files isImg (acc ++ [f]) rest := by
          simp [walk_files, himg, hlen2]
        rw [hstep]
        exact ih (acc ++ [f]) (by simp; omega)
    · have himg2 : isImg f = false := by simpa using himg
      have hlen2 : ¬ 2000 < acc.length := by omega
      have hstep : walk_files isImg acc (f :: rest) = walk_files isImg acc rest := by
        simp [walk_files, himg2, hlen2]
      rw [hstep]
      exact ih acc h

/-- Unfolding equation for one step of the directory walk. -/
theorem walk_dir_cons (isImg : String → Bool) (acc fnames : List String)
    (rest : List (List String)) :
    walk_dir isImg acc (fnames :: rest) =
      (match walk_files isImg acc fnames with
       | (acc2, true) => (acc2, true)
       | (acc2, false) => walk_dir isImg acc2 rest) := rfl

/-- Length bound for the whole directory walk: starting from at most 2000
collected files it ends with exactly 2001 when it broke and with at most
2000 otherwise. -/
theorem walk_dir_bound (isImg : String → Bool) :
    ∀ (triples : List (List String)) (acc : List String), acc.length ≤ 2000 →
      ((walk_dir isImg acc triples).2 = true → (walk_dir isImg acc triples).1.length = 2001) ∧
      ((walk_dir isImg acc triples).2 = false → (walk_dir isImg acc triples).1.length ≤ 2000) := by
  intro triples
  induction triples with
  | nil =>
    intro acc h
    constructor
    · intro hb; simp [walk_dir] at hb
    · intro _; simpa [walk_dir] using h
  | cons fnames rest ih =>
    intro acc h
    have hwf := walk_files_bound isImg fnames acc h
    cases hb : (walk_files isImg acc fnames).2 with
    | true =>
      have hstep : walk_dir isImg acc (fnames :: rest) = walk_files isImg acc fnames := by
        simp only [walk_dir]
        rw [show walk_files isImg acc fnames =
            ((walk_files isImg acc fnames).1, (walk_files isImg acc fnames).2) from rfl]
        rw [hb]
      rw [hstep]
      exact ⟨fun _ => hwf.1 hb, fun hfalse => absurd (hb.symm.trans hfalse) (by simp)⟩
    | false =>
      have hstep : walk_dir isImg acc (fnames :: rest) =
          walk_dir isImg (walk_files isImg acc fnames).1 rest := by
        simp only [walk_dir]
        rw [show walk_files isImg acc fnames =
            ((walk_files isImg acc fnames).1, (walk_files isImg acc fnames).2) from rfl]
        rw [hb]
      rw [hstep]
      exact ih (walk_files isImg acc fnames).1 (hwf.2 hb)

/-- C5 (amended): a directory walk started with at most 2000 already
collected files leaves at most 2001 files collected — the walk stops once
the list length exceeds 2000, i.e. at 2001, not at 2000. -/
theorem walk_caps_files_at_2001 (isfile : String → Bool) (acc : List String)
    (triples : List (List String)) (h : acc.length ≤ 2000) :
    (walk_dir (is_image isfile) acc triples).1.length ≤ 2001 := by
  have hb := walk_dir_bound (is_image isfile) triples acc h
  cases hbit : (walk_dir (is_image isfile) acc triples).2 with
  | true => simp [hb.1 hbit]
  | false =>
    have hle := hb.2 hbit
    omega

/-- C5 witness: a tiny directory walk stays well under the cap. -/
theorem walk_caps_files_at_2001_witness :
    ([] : List String).length ≤ 2000 ∧
    (walk_dir (is_image (fun _ => true)) [] [["a.jpg"]]).1.length ≤ 2001 :=
  ⟨by decide, walk_caps_files_at_2001 (fun _ => true) [] [["a.jpg"]] (by decide)⟩

/-- When every walked file is an image, a walk whose input would exactly
exhaust the cap appends all of them and breaks. -/
theorem walk_files_all_images (isImg : String → Bool) (f : String) (himg : isImg f = true) :
    ∀ (n : Nat) (acc : List String), acc.length + n = 2001 → 1 ≤ n →
      walk_files isImg acc (List.replicate n f) = (acc ++ List.replicate n f, true) := by
  intro n
  induction n with
  | zero => intro acc h h1; omega
  | succ m ih =>
    intro acc h h1
    rw [List.replicate_succ]
    by_cases hm : m = 0
    · subst hm
      have hlen2 : 2000 < acc.length + 1 := by omega
      have hstep : walk_files isImg acc (f :: List.replicate 0 f) = (acc ++ [f], true) := by
        simp [walk_files, himg, hlen2]
      rw [hstep]
      simp
    · have hlen2 : ¬ 2000 < acc.length + 1 := by omega
      have hstep : walk_files isImg acc (f :: List.replicate m f) =
          walk_files isImg (acc ++ [f]) (List.replicate m f) := by
        simp [walk_files, himg, hlen2]
      rw [hstep]
      rw [ih (acc ++ [f]) (by simp; omega) (by omega)]
      simp

/-- The 2001 identically named image entries of the counterexample walk. -/
def manyJpegs : List String := List.replicate 2001 "p.jpg"

/-- C5 counterexample: a directory whose walk yields 2001 image files
produces a collected list of 2001 entries, exceeding the claimed hard cap
of 2000. -/
theorem walk_collects_2001_files :
    (walk_dir (is_image (fun _ => true)) [] [manyJpegs]).1.length = 2001 ∧
    2000 < 2001 := by
  have himg : is_image (fun _ => true) "p.jpg" = true := by decide
  have hwf := walk_files_all_images (is_image (fun _ => true)) "p.jpg" himg 2001 []
    (by simp) (by omega)
  refine ⟨?_, by omega⟩
  rw [show ([manyJpegs] : List (List String)) = manyJpegs :: [] from rfl, walk_dir_cons,
    show manyJpegs = List.replicate 2001 "p.jpg" from rfl, hwf]
  show (([] : List String) ++ List.replicate 2001 "p.jpg").length = 2001
  rw [List.nil_append, List.length_replicate]

theorem dget_dset (d : Dict) (k k2 : String) (v : OVal) :
    dget (dset d k2 v) k = if k2 = k then some v else dget d k := by
  induction d with
  | nil => simp [dget, dset]
  | cons p rest ih =>
    obtain ⟨a, b⟩ := p
    simp only [dset]
    by_cases h1 : a = k2
    · simp only [if_pos h1, h1]
      by_cases h2 : k2 = k
      · simp [dget, h2]
      · simp [dget, h2]
    · simp only [if_neg h1]
      by_cases h2 : a = k
      · have h3 : k2 ≠ k := fun hh => h1 (h2.trans hh.symm)
        simp [dget, h2, h3]
      · simp [dget, h2, ih]

theorem dget_ddel (d : Dict) (k k2 : String) :
    dget (ddel d k2) k = if k2 = k then none else dget d k := by
  induction d with
  | nil => simp [dget, ddel]
  | cons p rest ih =>
    obtain ⟨a, b⟩ := p
    simp only [ddel]
    by_cases h1 : a = k2
    · rw [if_pos h1, ih]
      by_cases h2 : k2 = k
      · simp [h2]
      · simp [dget, h1, h2]
    · simp only [if_neg h1]
      by_cases h2 : a = k
      · have h3 : k2 ≠ k := fun hh => h1 (h2.trans hh.symm)
        simp [dget, h2, h3]
      · simp [dget, h2, ih]

/-- C4 (amended): the settings dict saved by `save_options` holds, for
every option dest except the deleted one-shot `defaults` flag, exactly the
effective merged value (command line over loaded settings over built-in
default), and it also always contains the `files_and_folders` entry. -/
theorem dget_foldl_dset_map (keys : List String) (f : String → OVal) :
    ∀ (d : Dict) (k : String),
      dget ((keys.map (fun kk => (kk, f kk))).foldl (fun d2 kv => dset d2 kv.1 kv.2) d) k =
        if k ∈ keys then some (f k) else dget d k := by
  induction keys with
  | nil => intro d k; simp
  | cons a rest ih =>
    intro d k
    simp only [List.map, List.foldl]
    rw [ih]
    by_cases hk : k ∈ rest
    · simp [hk]
    · by_cases hak : a = k
      · subst hak
        simp [hk, dget_dset]
      · have hak2 : ¬ k = a := fun h => hak h.symm
        simp [hk, hak, hak2, dget_dset]

theorem saved_options_merge_all_but_defaults (loaded cli : Dict) (args : List String) :
    dget (parse_options_dict loaded cli args) "defaults" = none ∧
    (∀ k ∈ cmd_dests, k ≠ "defaults" →
      dget (parse_options_dict loaded cli args) k = some (optparse_value loaded cli k)) ∧
    (dget (parse_options_dict loaded cli args) "files_and_folders").isSome = true := by
  refine ⟨?_, ?_, ?_⟩
  · simp only [parse_options_dict]
    split_ifs <;> simp [dget_dset, dget_ddel]
  · intro k hk hne
    have hbase : dget ((vars_cmd_options loaded cli).foldl
        (fun d2 kv => dset d2 kv.1 kv.2) loaded) k = some (optparse_value loaded cli k) := by
      rw [vars_cmd_options, dget_foldl_dset_map]
      simp [hk]
    have hne2 : "defaults" ≠ k := fun h => hne h.symm
    have hne3 : "files_and_folders" ≠ k := by
      intro h
      rw [← h] at hk
      exact absurd hk (by decide)
    simp only [parse_options_dict]
    split_ifs <;> simp [dget_dset, dget_ddel, hne2, hne3, hbase]
  · simp only [parse_options_dict]
    split_ifs with h1 h2 h3
    · exact h2
    · simp [dget_dset]
    · exact h3
    · simp [dget_dset]

/-- C4 counterexample: the saved settings dict contains the file/folder
list under `files_and_folders` (from the arguments, or the built-in
fallback folder), contrary to the claimed exclusion. -/
theorem saved_options_contain_files_and_folders :
    dget (parse_options_dict [] [] ["pics"]) "files_and_folders" =
      some (OVal.paths ["pics"]) ∧
    dget (parse_options_dict [] [] []) "files_and_folders" =
      some (OVal.paths ["/usr/share/backgrounds/"]) := by decide

/-- C3 (amended): every `initialize_pan_and_zoom` call negates
`will_enlarge`, so over any run of consecutive images the flag strictly
alternates; the value before the first image is the startup random draw
`random.choice((True, False))`, not a fixed constant. -/
theorem will_enlarge_alternates :
    (∀ (ar_target : String) (pan zoom stage_w stage_h tex_w tex_h : ℚ)
       (w sign_x sign_y : Bool) (r_pan_x r_pan_y r_zoom : ℚ),
      (initialize_pan_and_zoom ar_target pan zoom stage_w stage_h tex_w tex_h w
        sign_x sign_y r_pan_x r_pan_y r_zoom).will_enlarge = !w) ∧
    run_will_enlarge_init 0 = true ∧ run_will_enlarge_init 1 = false := by
  refine ⟨?_, rfl, rfl⟩
  intro ar_target pan zoom sw sh tw th w sx sy rx ry rz
  simp only [initialize_pan_and_zoom]
  split <;> rfl

/-- C3 counterexample: the initial `will_enlarge` value depends on the
random draw (it differs between the two possible draws), hence it is not
a fixed constant. -/
theorem run_initial_will_enlarge_depends_on_draw :
    run_will_enlarge_init 0 ≠ run_will_enlarge_init 1 := by decide

/-- C6: for positive texture dimensions, `get_ratio_to_screen` returns the
larger of the two stage/texture ratios when the aspect-ratio target is
`max` and the smaller when it is `min`. -/
theorem get_ratio_to_screen_max_min (stage_w stage_h tex_w tex_h : ℚ)
    (hw : 0 < tex_w) (hh : 0 < tex_h) :
    get_ratio_to_screen "max" stage_w stage_h tex_w tex_h =
      max (stage_w / tex_w) (stage_h / tex_h) ∧
    get_ratio_to_screen "min" stage_w stage_h tex_w tex_h =
      min (stage_w / tex_w) (stage_h / tex_h) := by
  constructor <;> simp [get_ratio_to_screen]

theorem get_ratio_to_screen_max_min_witness :
    (0 : ℚ) < 2 ∧ (0 : ℚ) < 1 ∧
    (get_ratio_to_screen "max" 4 3 2 1 = max (4 / 2 : ℚ) (3 / 1 : ℚ) ∧
      get_ratio_to_screen "min" 4 3 2 1 = min (4 / 2 : ℚ) (3 / 1 : ℚ)) :=
  ⟨by norm_num, by norm_num,
    get_ratio_to_screen_max_min 4 3 2 1 (by norm_num) (by norm_num)⟩

/-- C7: `name` sorting yields the sorted (ascending, stable) permutation
of the list, `date` sorting a permutation non-decreasing in the mtime key,
`keep` preserves the original command-line order, and sort order `desc`
reverses whichever base ordering was selected. -/
theorem sort_files_policies (mtime : String → ℚ) (shuffle : List String → List String)
    (files : List String) (osort : String) :
    (sort_files "name" "asc" mtime shuffle files).Sorted (· ≤ ·) ∧
    (sort_files "name" "asc" mtime shuffle files).Perm files ∧
    (sort_files "date" "asc" mtime shuffle files).Sorted
      (fun a b => mtime a ≤ mtime b) ∧
    (sort_files "date" "asc" mtime shuffle files).Perm files ∧
    sort_files "keep" "asc" mtime shuffle files = files ∧
    sort_files osort "desc" mtime shuffle files =
      (sort_files osort "asc" mtime shuffle files).reverse := by
  have hname : sort_files "name" "asc" mtime shuffle files =
      files.insertionSort (· ≤ ·) := rfl
  have hdate : sort_files "date" "asc" mtime shuffle files =
      files.insertionSort (fun a b => mtime a ≤ mtime b) := rfl
  have hkeep : sort_files "keep" "asc" mtime shuffle files = files := rfl
  have hdesc : sort_files osort "desc" mtime shuffle files =
      (sort_files osort "asc" mtime shuffle files).reverse := rfl
  refine ⟨?_, ?_, ?_, ?_, hkeep, hdesc⟩
  · rw [hname]
    exact List.sorted_insertionSort _ files
  · rw [hname]
    exact List.perm_insertionSort _ files
  · rw [hdate]
    letI : IsTotal String (fun a b => mtime a ≤ mtime b) := ⟨fun a b => le_total _ _⟩
    letI : IsTrans String (fun a b => mtime a ≤ mtime b) :=
      ⟨fun a b c hab hbc => le_trans hab hbc⟩
    exact List.sorted_insertionSort _ files
  · rw [hdate]
    exact List.perm_insertionSort _ files

/-- C8: when the data queue delivers the failing-filename sentinel (a
non-empty filename rather than a success tuple), the `go_next` iteration
adds that filename to `error_files`, starts the next prefetch, recurses
immediately, and leaves the displayed texture unchanged (no retry is
scheduled and nothing is destroyed). -/
theorem go_next_failure_sentinel_branch (fuel : Nat) (s s' : SState) (eff : Effects)
    (f : String) (hr : s.running = true) (hf : f ≠ "")
    (h : go_next_step fuel s (Delivered.fileError f) = some (s', eff)) :
    f ∈ s'.error_files ∧ s'.texture = s.texture ∧
    eff.prefetch_started = true ∧ eff.recursed = true ∧
    eff.retry_scheduled = false ∧ eff.destroyed = none := by
  simp only [go_next_step, hr, hf] at h
  simp at h
  split at h
  · cases h
  · rename_i s2 r hps
    simp only [prepare_next_data] at hps
    split at hps
    · cases hps
    · rename_i s3 res q hgnf
      cases hps
      cases h
      have hframe := get_next_file_frame fuel _ _ _ _ hgnf
      refine ⟨?_, ?_, rfl, rfl, rfl, rfl⟩
      · rw [hframe.2.1]
        exact mem_setAdd_self s.error_files f
      · exact hframe.2.2

/-- C8 witness: a concrete failing delivery. -/
def c8State : SState :=
  { running := true, queued := [], files := ["a", "b"], error_files := [],
    cursor := 0, texture := 7, next_texture := none, prev_texture := none,
    next_timeout := some TKind.interval, will_enlarge := false, tex_counter := 9 }

/-- The state after `go_next` consumes the failure sentinel `"b"` in
`c8State`: `"b"` is blacklisted, the pending timeout removed, and the
prefetch of the next file (`"a"`) has advanced the cursor. -/
def c8StateAfter : SState :=
  { running := true, queued := [], files := ["a", "b"], error_files := ["b"],
    cursor := 1, texture := 7, next_texture := none, prev_texture := none,
    next_timeout := none, will_enlarge := false, tex_counter := 9 }

theorem go_next_failure_sentinel_branch_witness :
    c8State.running = true ∧ "b" ≠ "" ∧
    go_next_step 2 c8State (Delivered.fileError "b") =
      some (c8StateAfter, ⟨true, true, false, none⟩) ∧
    ("b" ∈ c8StateAfter.error_files ∧ c8StateAfter.texture = c8State.texture ∧
      (⟨true, true, false, none⟩ : Effects).prefetch_started = true ∧
      (⟨true, true, false, none⟩ : Effects).recursed = true ∧
      (⟨true, true, false, none⟩ : Effects).retry_scheduled = false ∧
      (⟨true, true, false, none⟩ : Effects).destroyed = none) :=
  ⟨rfl, by decide, by decide,
    go_next_failure_sentinel_branch 2 c8State c8StateAfter ⟨true, true, false, none⟩ "b"
      rfl (by decide) (by decide)⟩
